import Mathlib

/-!
# Verification of the opa-kube-scheduler scheduling pipeline

Shallow embedding of `src/pkg/scheduler.go` (package `pkg` of
`opa-kube-scheduler`).  Go `interface{}` values decoded from JSON are
modelled by the inductive `JsonVal`; Go's `map[string]interface{}` is an
association list of fields with unique keys, and map assignment is
`upsertField`.  `float64` weights are modelled by `ℚ` (the fit weights are
compared with plain `<`, and no claim below depends on rounding).

External collaborators (the OPA storage engine, the topdown query engine,
the HTTP transport and the reflector event source) are not part of this
repository's `src/`; they are modelled from the spec's interface
contracts, each marked `Modelled from the spec:` in its doc comment.
The scheduler's own logic (`schedulePod`, `bindPod`, `schedule`, `patch`,
`patchOp`, `getMetadata`, `getUID`, `getNodeName`, the `ranking` sort)
is translated directly from `scheduler.go`.
-/

/-- A JSON-like dynamic value: the model of Go `interface{}` data decoded
from the Kubernetes API or produced by the OPA query engine.  Objects are
association lists of fields (Go maps have unique keys; lookups take the
first match). -/
inductive JsonVal where
  | null
  | bool (b : Bool)
  | num (q : ℚ)
  | str (s : String)
  | arr (elems : List JsonVal)
  | obj (fields : List (String × JsonVal))

/-- Returns `true` exactly when the dynamic value is an object (a Go
`map[string]interface{}`), i.e. when the `case map[string]interface{}`
arm of a Go type switch would fire. -/
def JsonVal.isObj : JsonVal → Bool
  | .obj _ => true
  | _ => false

/-- Field lookup in an object's field list: Go `m["k"]` (first match). -/
def lookupField : List (String × JsonVal) → String → Option JsonVal
  | [], _ => none
  | (k', v) :: rest, k => if k' = k then some v else lookupField rest k

/-- Go map assignment `m["k"] = v`: replace the binding in place if the
key is present, otherwise append it. -/
def upsertField : List (String × JsonVal) → String → JsonVal → List (String × JsonVal)
  | [], k, v => [(k, v)]
  | (k', v') :: rest, k, v =>
    if k' = k then (k, v) :: rest else (k', v') :: upsertField rest k v

/-- The helper `getMetadata` (scheduler.go:356-365): returns `m["metadata"][key]`
when `obj` is a map, its `metadata` field is a map and the `key` field of
that is a string; `none` models the `malformed object` error return. -/
def getMetadata (key : String) (obj : JsonVal) : Option String :=
  match obj with
  | .obj fields =>
    match lookupField fields "metadata" with
    | some (.obj mfields) =>
      match lookupField mfields key with
      | some (.str u) => some u
      | _ => none
    | _ => none
  | _ => none

/-- The helper `getUID` (scheduler.go:352-354): `getMetadata "uid"`. -/
def getUID (obj : JsonVal) : Option String :=
  getMetadata "uid" obj

/-- The helper `getNodeName` (scheduler.go:343-350): returns `pod["spec"]["nodeName"]`
when present as a string; `none` models the `malformed pod` error. -/
def getNodeName (pod : JsonVal) : Option String :=
  match pod with
  | .obj fields =>
    match lookupField fields "spec" with
    | some (.obj sfields) =>
      match lookupField sfields "nodeName" with
      | some (.str v) => some v
      | _ => none
    | _ => none
  | _ => none

/-- The `ranking` struct (scheduler.go:367-370): one candidate node and
its fit weight. -/
structure ranking where
  nodeName : String
  weight : ℚ
deriving DecidableEq, Repr

/-- The comparison used by `rankings.Less` (scheduler.go:378-380) is
`r[i].weight < r[j].weight`; sorting by that strict order yields a list
that is non-decreasing in weight, i.e. sorted by this relation. -/
def rankingLE (a b : ranking) : Prop := a.weight ≤ b.weight

instance : DecidableRel rankingLE := fun a b =>
  inferInstanceAs (Decidable (a.weight ≤ b.weight))

instance : IsTotal ranking rankingLE := ⟨fun a b => le_total a.weight b.weight⟩

instance : IsTrans ranking rankingLE := ⟨fun _ _ _ => le_trans⟩

/-- The call `sort.Sort(rankings)` (scheduler.go:207): the Go library guarantees
only that the result is a permutation of the input that is sorted by
`Less` (it is not stable).  We model it with insertion sort; no theorem
below depends on which sorted permutation is produced. -/
def sortRankings (rks : List ranking) : List ranking :=
  List.insertionSort rankingLE rks

/-- The loop `for k, v := range results { w := v.(float64); ... }`
(scheduler.go:195-198).  The type assertion `v.(float64)` is unchecked:
a non-numeric value panics, modelled by `none`. -/
def toRankings : List (String × JsonVal) → Option (List ranking)
  | [] => some []
  | (k, .num w) :: rest => (toRankings rest).map (fun rs => ⟨k, w⟩ :: rs)
  | _ => none

/-- Modelled from the spec: the Resource Mirror is "a transactional
key-value document store keyed by resource-type and unique identifier"
(spec §2, §3); its storage engine (the OPA `storage` package) is an
external collaborator.  We represent it as an association list from
`(resourceType, uid)` keys to documents. -/
def Mirror := List ((String × String) × JsonVal)

/-- Mirror lookup at a `(resourceType, uid)` key. -/
def Mirror.lookup : Mirror → (String × String) → Option JsonVal
  | [], _ => none
  | (k', v) :: rest, k => if k' = k then some v else Mirror.lookup rest k

/-- Mirror upsert: replace the entry in place when the key is present,
append otherwise (spec §3: "writes are idempotent upsert-by-uid"). -/
def Mirror.upsert : Mirror → (String × String) → JsonVal → Mirror
  | [], k, v => [(k, v)]
  | (k', v') :: rest, k, v =>
    if k' = k then (k, v) :: rest else (k', v') :: Mirror.upsert rest k v

/-- Mirror removal of every entry at a key. -/
def Mirror.removeKey : Mirror → (String × String) → Mirror
  | [], _ => []
  | (k', v') :: rest, k =>
    if k' = k then Mirror.removeKey rest k else (k', v') :: Mirror.removeKey rest k

/-- The patch operations of `storage.PatchOp` consumed by the scheduler:
`storage.AddOp`, `storage.ReplaceOp`, `storage.RemoveOp`. -/
inductive PatchOpKind where
  | addOp
  | replaceOp
  | removeOp
deriving DecidableEq, Repr

/-- Modelled from the spec: the Mirror's write contract
`Write(handle, op ∈ {Add, Replace, Remove}, path, document) → error`
(spec §6), at a two-segment path `data.<resourceType>[uid]`, following
JSON-Patch semantics: `Add` into an object upserts the key, `Replace`
and `Remove` require the key to be present (`none` models the error
return, which no claim below exercises on a missing key). -/
def storeWrite (m : Mirror) (op : PatchOpKind) (resourceType uid : String)
    (doc : JsonVal) : Option Mirror :=
  match op with
  | .addOp => some (m.upsert (resourceType, uid) doc)
  | .replaceOp =>
    if (m.lookup (resourceType, uid)).isSome
      then some (m.upsert (resourceType, uid) doc) else none
  | .removeOp =>
    if (m.lookup (resourceType, uid)).isSome
      then some (m.removeKey (resourceType, uid)) else none

/-- One Mirror write performed during a run, recorded for frame/effect
reasoning: the operation, the path `data.<resourceType>[uid]`, and the
document (Go passes `nil` for the compensating remove: `doc = none`). -/
structure WriteRec where
  op : PatchOpKind
  resourceType : String
  uid : String
  doc : Option JsonVal

/-- The error values the scheduler's actions can return. -/
inductive SchedErr where
  | malformedObject
  | queryErr
  | storageErr
  | bindTransport
  | bindStatus (code : Nat)
  | streamErr
deriving DecidableEq, Repr

/-- How a call returns: normally (`ok`), with a Go `error` (`err`), or by
crashing on an unchecked type assertion (`panicked`). -/
inductive Outcome where
  | ok
  | err (e : SchedErr)
  | panicked
deriving DecidableEq, Repr

/-- Modelled from the spec: the oracle's possible answers, "a mapping
from node identifier to numeric weight, an undefined result …, or a
malformed result (any other shape)" (spec §4.4); `queryErr` models
`topdown.Query` returning a Go error (scheduler.go:184-187). -/
inductive OracleResult where
  | queryErr
  | undef
  | defined (v : JsonVal)

/-- Modelled from the spec: the control plane's answer to the binding
POST — a transport-level failure of `client.Do`, or a response carrying
an HTTP status code (spec §4.5). -/
inductive BindResp where
  | transportErr
  | status (code : Nat)
deriving DecidableEq, Repr

/-- The binding committer `bindPod` (scheduler.go:245-303): extracts `metadata.name`,
`spec.nodeName` and `metadata.namespace` in that order (each missing
string field is a malformed-object error), then POSTs the binding; a
transport failure is an error, and a response status above
`http.StatusCreated` (201) is an `httpErr`.  JSON encoding of the fixed
binding struct and request construction cannot fail and are elided. -/
def bindPod (resp : BindResp) (pod : JsonVal) : Option SchedErr :=
  match getMetadata "name" pod with
  | none => some .malformedObject
  | some _ =>
    match getNodeName pod with
    | none => some .malformedObject
    | some _ =>
      match getMetadata "namespace" pod with
      | none => some .malformedObject
      | some _ =>
        match resp with
        | .transportErr => some .bindTransport
        | .status code => if 201 < code then some (.bindStatus code) else none

/-- The in-place mutation `spec := pod["spec"].(map[string]interface{});
spec["nodeName"] = nodeName` (scheduler.go:216-217), as the pod document
that results from it: the caller's pod map with the selected node name
stored under `spec.nodeName`. -/
def setNodeName (podFields sf : List (String × JsonVal)) (nodeName : String) : JsonVal :=
  .obj (upsertField podFields "spec" (.obj (upsertField sf "nodeName" (.str nodeName))))

/-- The result of one `schedulePod` call: its outcome, the pod document
as the caller sees it afterwards (Go mutates the pod map in place), the
Mirror contents, and the Mirror writes performed. -/
structure SchedResult where
  outcome : Outcome
  pod : JsonVal
  mirror : Mirror
  writes : List WriteRec

/-- The scheduling decision engine `schedulePod` (scheduler.go:154-243).  The oracle's answer and the
control plane's answer are passed as parameters (`results`, `resp`);
everything else follows the source: extract the uid (malformed-object
error when absent), dispatch on the query result's shape, build and sort
the rankings (a non-numeric weight panics on `v.(float64)`), take the
last (maximum-weight) ranking, set `spec.nodeName` in place (a missing
or non-object `spec` panics on the type assertion), upsert the pod at
`data.pods[uid]`, bind, and on bind failure remove the entry and return
the bind error. -/
def schedulePod (results : OracleResult) (resp : BindResp) (pod : JsonVal)
    (m : Mirror) : SchedResult :=
  match getUID pod with
  | none => ⟨.err .malformedObject, pod, m, []⟩
  | some uid =>
    match results with
    | .queryErr => ⟨.err .queryErr, pod, m, []⟩
    | .undef => ⟨.ok, pod, m, []⟩
    | .defined v =>
      match v with
      | .obj fields =>
        match toRankings fields with
        | none => ⟨.panicked, pod, m, []⟩
        | some rks =>
          match (sortRankings rks).getLast? with
          | none => ⟨.ok, pod, m, []⟩
          | some top =>
            match pod with
            | .obj podFields =>
              match lookupField podFields "spec" with
              | some (.obj sf) =>
                let pod' := setNodeName podFields sf top.nodeName
                match storeWrite m .addOp "pods" uid pod' with
                | none => ⟨.err .storageErr, pod', m, []⟩
                | some m1 =>
                  match bindPod resp pod' with
                  | none => ⟨.ok, pod', m1, [⟨.addOp, "pods", uid, some pod'⟩]⟩
                  | some e =>
                    match storeWrite m1 .removeOp "pods" uid .null with
                    | none => ⟨.err .storageErr, pod', m1,
                        [⟨.addOp, "pods", uid, some pod'⟩]⟩
                    | some m2 => ⟨.err e, pod', m2,
                        [⟨.addOp, "pods", uid, some pod'⟩,
                         ⟨.removeOp, "pods", uid, none⟩]⟩
              | _ => ⟨.panicked, pod, m, []⟩
            | _ => ⟨.panicked, pod, m, []⟩
      | _ => ⟨.ok, pod, m, []⟩

/-- Modelled from the spec: the Incremental event tags
{added, modified, deleted} (spec §3); the `sync` event type itself lives
in the reflector source, which is not under `src/`. -/
inductive SyncType where
  | added
  | modified
  | deleted
deriving DecidableEq, Repr

/-- Modelled from the spec: a Change Event is "either a Resync (ordered
sequence of full Resource Documents …) or an Incremental event tagged
{added, modified, deleted} carrying one Resource Document, or an error
condition" (spec §3).  The Go payloads are `*resync`, `*sync` and
`error`, produced by the reflector (not under `src/`). -/
inductive Event where
  | resync (items : List JsonVal)
  | sync (type_ : SyncType) (object : JsonVal)
  | fault (e : SchedErr)

/-- The result of one dispatched action: outcome, Mirror contents, and
the Mirror writes performed. -/
structure PatchResult where
  outcome : Outcome
  mirror : Mirror
  writes : List WriteRec

/-- The helper `patchOp` (scheduler.go:329-341): extract the object's uid
(malformed-object error when absent) and apply one transactional write
at `data.<resourceType>[uid]`. -/
def patchOp (resourceType : String) (op : PatchOpKind) (obj : JsonVal)
    (m : Mirror) : PatchResult :=
  match getUID obj with
  | none => ⟨.err .malformedObject, m, []⟩
  | some uid =>
    match storeWrite m op resourceType uid obj with
    | none => ⟨.err .storageErr, m, []⟩
    | some m' => ⟨.ok, m', [⟨op, resourceType, uid, some obj⟩]⟩

/-- The Resync loop of `patch` (scheduler.go:307-313): apply an `AddOp`
upsert per item, stopping at the first failing item (writes already
applied stay applied). -/
def patchItems (resourceType : String) : List JsonVal → Mirror → PatchResult
  | [], m => ⟨.ok, m, []⟩
  | item :: rest, m =>
    let r := patchOp resourceType .addOp item m
    match r.outcome with
    | .ok =>
      let r2 := patchItems resourceType rest r.mirror
      ⟨r2.outcome, r2.mirror, r.writes ++ r2.writes⟩
    | _ => r

/-- The action `patch` (scheduler.go:305-327): the Mirror-Patch action.  Resync
upserts every item; Incremental maps added→`AddOp`, modified→`ReplaceOp`,
deleted→`RemoveOp`; an error payload is returned as-is. -/
def patch (resourceType : String) (payload : Event) (m : Mirror) : PatchResult :=
  match payload with
  | .resync items => patchItems resourceType items m
  | .sync t obj =>
    match t with
    | .added => patchOp resourceType .addOp obj m
    | .modified => patchOp resourceType .replaceOp obj m
    | .deleted => patchOp resourceType .removeOp obj m
  | .fault e => ⟨.err e, m, []⟩

/-- The Resync loop of `schedule` (scheduler.go:138-143): each item is
cast with `item.(map[string]interface{})` (a non-map item panics) and
scheduled; the loop stops at the first item whose scheduling fails.  The
oracle's and control plane's answers for each pod are supplied by the
environment functions `oracleOf` and `respOf`. -/
def scheduleItems (oracleOf : JsonVal → OracleResult) (respOf : JsonVal → BindResp) :
    List JsonVal → Mirror → PatchResult
  | [], m => ⟨.ok, m, []⟩
  | item :: rest, m =>
    match item with
    | .obj fs =>
      let r := schedulePod (oracleOf (.obj fs)) (respOf (.obj fs)) (.obj fs) m
      match r.outcome with
      | .ok =>
        let r2 := scheduleItems oracleOf respOf rest r.mirror
        ⟨r2.outcome, r2.mirror, r.writes ++ r2.writes⟩
      | o => ⟨o, r.mirror, r.writes⟩
    | _ => ⟨.panicked, m, []⟩

/-- The action `schedule` (scheduler.go:136-152): the Pod-Schedule action.  A
Resync schedules every item; an Incremental event schedules only when
its type is `added` (modified/deleted fall through to `return nil`); an
error payload is returned as-is. -/
def schedule (oracleOf : JsonVal → OracleResult) (respOf : JsonVal → BindResp)
    (resourceType : String) (payload : Event) (m : Mirror) : PatchResult :=
  match payload with
  | .resync items => scheduleItems oracleOf respOf items m
  | .sync t obj =>
    if t = .added then
      let r := schedulePod (oracleOf obj) (respOf obj) obj m
      ⟨r.outcome, r.mirror, r.writes⟩
    else ⟨.ok, m, []⟩
  | .fault e => ⟨.err e, m, []⟩

/-! ## Basic lemmas about the data model -/

theorem lookupField_upsertField (fs : List (String × JsonVal)) (k : String)
    (v : JsonVal) (k' : String) :
    lookupField (upsertField fs k v) k' = if k = k' then some v else lookupField fs k' := by
  induction fs with
  | nil => simp [upsertField, lookupField]
  | cons hd tl ih =>
    obtain ⟨a, b⟩ := hd
    by_cases hak : a = k
    · subst hak
      by_cases hk' : a = k' <;> simp [upsertField, lookupField, hk']
    · by_cases hk' : a = k'
      · subst hk'
        simp [upsertField, lookupField, hak, Ne.symm hak]
      · simp [upsertField, lookupField, hak, hk', ih]

theorem Mirror.lookup_upsert (m : Mirror) (k : String × String) (v : JsonVal)
    (k' : String × String) :
    (m.upsert k v).lookup k' = if k = k' then some v else m.lookup k' := by
  induction m with
  | nil => simp [Mirror.upsert, Mirror.lookup]
  | cons hd tl ih =>
    obtain ⟨a, b⟩ := hd
    by_cases hak : a = k
    · subst hak
      by_cases hk' : a = k' <;> simp [Mirror.upsert, Mirror.lookup, hk']
    · by_cases hk' : a = k'
      · subst hk'
        simp [Mirror.upsert, Mirror.lookup, hak, Ne.symm hak]
      · simp [Mirror.upsert, Mirror.lookup, hak, hk', ih]

theorem Mirror.lookup_removeKey (m : Mirror) (k k' : String × String) :
    (m.removeKey k).lookup k' = if k = k' then none else m.lookup k' := by
  induction m with
  | nil => simp [Mirror.removeKey, Mirror.lookup]
  | cons hd tl ih =>
    obtain ⟨a, b⟩ := hd
    by_cases hak : a = k
    · subst hak
      by_cases hk' : a = k'
      · subst hk'
        simpa [Mirror.removeKey] using ih
      · simp [Mirror.removeKey, Mirror.lookup, hk', ih]
    · by_cases hk' : a = k'
      · subst hk'
        simp [Mirror.removeKey, Mirror.lookup, hak, Ne.symm hak]
      · simp [Mirror.removeKey, Mirror.lookup, hak, hk', ih]

theorem Mirror.upsert_upsert_same (m : Mirror) (k : String × String) (v : JsonVal) :
    (m.upsert k v).upsert k v = m.upsert k v := by
  induction m with
  | nil => simp [Mirror.upsert]
  | cons hd tl ih =>
    obtain ⟨a, b⟩ := hd
    by_cases hak : a = k
    · subst hak
      simp [Mirror.upsert]
    · simp [Mirror.upsert, hak, ih]

theorem toRankings_eq {fields : List (String × JsonVal)} {rks : List ranking}
    (h : toRankings fields = some rks) :
    fields = rks.map (fun r => (r.nodeName, JsonVal.num r.weight)) := by
  induction fields generalizing rks with
  | nil =>
    simp [toRankings] at h
    subst h
    rfl
  | cons hd tl ih =>
    obtain ⟨k, v⟩ := hd
    cases v with
    | num w =>
      simp only [toRankings, Option.map_eq_some'] at h
      obtain ⟨rs, hrs, hcons⟩ := h
      subst hcons
      simpa using ih hrs
    | null => simp [toRankings] at h
    | bool b => simp [toRankings] at h
    | str s => simp [toRankings] at h
    | arr es => simp [toRankings] at h
    | obj fs => simp [toRankings] at h

/-- In a weight-sorted ranking list, the last element's weight bounds
every element's weight. -/
theorem weight_le_of_getLast? {l : List ranking} {top : ranking}
    (hs : l.Pairwise rankingLE) (hl : l.getLast? = some top) :
    ∀ r ∈ l, r.weight ≤ top.weight := by
  induction l with
  | nil => simp at hl
  | cons a t ih =>
    cases t with
    | nil =>
      simp [List.getLast?] at hl
      subst hl
      intro r hr
      simp at hr
      subst hr
      exact le_refl _
    | cons b t' =>
      rw [List.getLast?_cons_cons] at hl
      have hpw := List.pairwise_cons.mp hs
      have htail := ih hpw.2 hl
      have htop : top ∈ b :: t' := by
        obtain ⟨hne, heq⟩ := List.mem_getLast?_eq_getLast hl
        rw [heq]
        exact List.getLast_mem hne
      intro r hr
      rcases List.mem_cons.mp hr with hra | hrt
      · subst hra
        exact hpw.1 top htop
      · exact htail r hrt

/-- Evaluation of `schedulePod` on the path that reaches the bind call:
valid uid, oracle mapping whose rankings are non-empty and numeric, and
an object-valued `spec`.  The result is determined by `bindPod`'s answer:
on success the upserted entry stays; on failure it is removed again and
the bind error is returned.  In both cases the pod returned to the
caller carries the selected `spec.nodeName` (the Go code mutated it in
place). -/
theorem schedulePod_eval
    {pod : JsonVal} {podFields : List (String × JsonVal)} {uid : String}
    {sf : List (String × JsonVal)} {fields : List (String × JsonVal)}
    {rks : List ranking} {top : ranking}
    (hpod : pod = .obj podFields)
    (huid : getUID pod = some uid)
    (hspec : lookupField podFields "spec" = some (.obj sf))
    (hrk : toRankings fields = some rks)
    (hlast : (sortRankings rks).getLast? = some top)
    (resp : BindResp) (m : Mirror) :
    schedulePod (.defined (.obj fields)) resp pod m =
      match bindPod resp (setNodeName podFields sf top.nodeName) with
      | none => ⟨.ok, setNodeName podFields sf top.nodeName,
          m.upsert ("pods", uid) (setNodeName podFields sf top.nodeName),
          [⟨.addOp, "pods", uid, some (setNodeName podFields sf top.nodeName)⟩]⟩
      | some e => ⟨.err e, setNodeName podFields sf top.nodeName,
          (m.upsert ("pods", uid) (setNodeName podFields sf top.nodeName)).removeKey
            ("pods", uid),
          [⟨.addOp, "pods", uid, some (setNodeName podFields sf top.nodeName)⟩,
           ⟨.removeOp, "pods", uid, none⟩]⟩ := by
  subst hpod
  simp only [schedulePod, huid, hrk, hlast, hspec, storeWrite,
    Mirror.lookup_upsert, if_pos rfl, Option.isSome_some, if_true]

/-- A well-formed pending pod document, used as concrete input by the
witnesses (cf. the end-to-end scenario of spec §8). -/
def pod0 : JsonVal :=
  .obj [("metadata", .obj [("uid", .str "p1"), ("name", .str "a"),
                           ("namespace", .str "ns")]),
        ("spec", .obj []),
        ("status", .obj [("phase", .str "Pending")])]

/-! ## Claim theorems -/

/-- C9: for every pod document whose `metadata.uid` is absent (no
metadata object, no uid key, or a non-string uid — exactly the cases in
which `getUID` fails), `schedulePod` returns the malformed-object error
with the Mirror unchanged and zero writes (in the source the error
return at scheduler.go:156-159 precedes the transaction open and any
write). -/
theorem schedulePod_missing_uid_error (results : OracleResult) (resp : BindResp)
    (pod : JsonVal) (m : Mirror) (h : getUID pod = none) :
    schedulePod results resp pod m = ⟨.err .malformedObject, pod, m, []⟩ := by
  simp [schedulePod, h]

theorem schedulePod_missing_uid_error_witness :
    getUID (.obj [("metadata", .obj [("name", .str "a")])]) = none ∧
    schedulePod .undef (.status 200) (.obj [("metadata", .obj [("name", .str "a")])]) [] =
      ⟨.err .malformedObject, .obj [("metadata", .obj [("name", .str "a")])], [], []⟩ :=
  ⟨rfl, schedulePod_missing_uid_error _ _ _ _ rfl⟩

/-- C3: for every pod with a valid `metadata.uid`, when the oracle
result is undefined or the empty mapping, `schedulePod` returns no
error, leaves the Mirror untouched and performs zero writes. -/
theorem schedulePod_no_decision_no_writes (results : OracleResult) (resp : BindResp)
    (pod : JsonVal) (m : Mirror) (uid : String)
    (huid : getUID pod = some uid)
    (h : results = .undef ∨ results = .defined (.obj [])) :
    schedulePod results resp pod m = ⟨.ok, pod, m, []⟩ := by
  rcases h with h | h <;> subst h <;>
    simp [schedulePod, huid, toRankings, sortRankings, List.insertionSort]

theorem schedulePod_no_decision_no_writes_witness :
    getUID pod0 = some "p1" ∧
    schedulePod .undef (.status 200) pod0 [] = ⟨.ok, pod0, [], []⟩ ∧
    schedulePod (.defined (.obj [])) (.status 200) pod0 [] = ⟨.ok, pod0, [], []⟩ :=
  ⟨rfl, schedulePod_no_decision_no_writes _ _ _ _ "p1" rfl (Or.inl rfl),
    schedulePod_no_decision_no_writes _ _ _ _ "p1" rfl (Or.inr rfl)⟩

/-- C4 counterexample: the claim says any malformed oracle result —
"including a mapping whose values are not numeric" — makes
`SchedulePod` log and return without error.  But a mapping-shaped result
enters the `case map[string]interface{}` arm and each value is cast with
the unchecked type assertion `w := v.(float64)` (scheduler.go:196): a
non-numeric value panics instead of returning.  Concretely, with the
oracle returning `{"n1": "x"}` on a valid pod the run panics; it does
not return without error. -/
theorem schedulePod_nonnumeric_mapping_panics :
    (schedulePod (.defined (.obj [("n1", .str "x")])) (.status 200) pod0
        ([] : Mirror)).outcome = Outcome.panicked ∧
    Outcome.panicked ≠ Outcome.ok := ⟨rfl, by decide⟩

/-- C4 (amended): for every pod with a valid `metadata.uid`, if the
oracle returns a defined result of any shape other than a mapping, the
`default` arm of the type switch (scheduler.go:202-204) logs the outcome
and `schedulePod` returns without error, no Mirror change and no writes;
a mapping whose values are not all numeric instead panics. -/
theorem schedulePod_non_mapping_result_ok (results : OracleResult) (resp : BindResp)
    (pod : JsonVal) (m : Mirror) (uid : String) (v : JsonVal)
    (huid : getUID pod = some uid) (hres : results = .defined v)
    (hv : v.isObj = false) :
    schedulePod results resp pod m = ⟨.ok, pod, m, []⟩ := by
  subst hres
  cases v <;> simp_all [schedulePod, JsonVal.isObj]

theorem schedulePod_non_mapping_result_ok_witness :
    getUID pod0 = some "p1" ∧ (JsonVal.str "z").isObj = false ∧
    schedulePod (.defined (.str "z")) (.status 200) pod0 [] = ⟨.ok, pod0, [], []⟩ :=
  ⟨rfl, rfl, schedulePod_non_mapping_result_ok _ _ _ _ "p1" _ rfl rfl rfl⟩

/-- C5: `bindPod` returns an error exactly when the pod lacks a string
`metadata.name`, `spec.nodeName` or `metadata.namespace`, or the request
fails at transport level, or the response status exceeds 201; any
response with status at most 201 is a success. -/
theorem bindPod_error_iff (resp : BindResp) (pod : JsonVal) :
    (bindPod resp pod).isSome ↔
      getMetadata "name" pod = none ∨ getNodeName pod = none ∨
      getMetadata "namespace" pod = none ∨ resp = .transportErr ∨
      ∃ c, resp = .status c ∧ 201 < c := by
  unfold bindPod
  cases hn : getMetadata "name" pod
  · simp [hn]
  · cases hd : getNodeName pod
    · simp [hn, hd]
    · cases hs : getMetadata "namespace" pod
      · simp [hn, hd, hs]
      · cases resp with
        | transportErr => simp [hn, hd, hs]
        | status c => by_cases hc : 201 < c <;> simp [hn, hd, hs, hc]

/-- C6: an Incremental event routed to the Pod-Schedule action leads to
a scheduling attempt exactly when its kind is `added` — then the call's
outcome, Mirror and writes are those of `schedulePod` on the event's
object — while `modified` and `deleted` events return no error, change
nothing in the Mirror, and perform zero writes. -/
theorem schedule_incremental_added_only (oracleOf : JsonVal → OracleResult)
    (respOf : JsonVal → BindResp) (resourceType : String) (obj : JsonVal)
    (m : Mirror) :
    schedule oracleOf respOf resourceType (.sync .modified obj) m = ⟨.ok, m, []⟩ ∧
    schedule oracleOf respOf resourceType (.sync .deleted obj) m = ⟨.ok, m, []⟩ ∧
    schedule oracleOf respOf resourceType (.sync .added obj) m =
      ⟨(schedulePod (oracleOf obj) (respOf obj) obj m).outcome,
       (schedulePod (oracleOf obj) (respOf obj) obj m).mirror,
       (schedulePod (oracleOf obj) (respOf obj) obj m).writes⟩ := by
  refine ⟨?_, ?_, ?_⟩ <;> simp [schedule]

/-- C8: applying the Mirror-Patch action to the same Incremental `added`
event twice leaves the Mirror exactly as applying it once — the second
write upserts the same document at the same `(resourceType, uid)` key in
place. -/
theorem patch_added_idempotent (resourceType : String) (obj : JsonVal) (m : Mirror) :
    (patch resourceType (.sync .added obj)
        (patch resourceType (.sync .added obj) m).mirror).mirror =
      (patch resourceType (.sync .added obj) m).mirror := by
  cases h : getUID obj with
  | none => simp [patch, patchOp, h]
  | some uid => simp [patch, patchOp, h, storeWrite, Mirror.upsert_upsert_same]

theorem getNodeName_setNodeName (podFields sf : List (String × JsonVal)) (n : String) :
    getNodeName (setNodeName podFields sf n) = some n := by
  simp [getNodeName, setNodeName, lookupField_upsertField]

theorem getMetadata_setNodeName (key : String) (podFields sf : List (String × JsonVal))
    (n : String) :
    getMetadata key (setNodeName podFields sf n) = getMetadata key (.obj podFields) := by
  simp [getMetadata, setNodeName, lookupField_upsertField]

/-- The pod document returned by `schedulePod` on the path that reaches
the bind call is the in-place mutated pod, on the bind-success and the
bind-failure branch alike. -/
theorem schedulePod_eval_pod
    {pod : JsonVal} {podFields : List (String × JsonVal)} {uid : String}
    {sf : List (String × JsonVal)} {fields : List (String × JsonVal)}
    {rks : List ranking} {top : ranking}
    (hpod : pod = .obj podFields)
    (huid : getUID pod = some uid)
    (hspec : lookupField podFields "spec" = some (.obj sf))
    (hrk : toRankings fields = some rks)
    (hlast : (sortRankings rks).getLast? = some top)
    (resp : BindResp) (m : Mirror) :
    (schedulePod (.defined (.obj fields)) resp pod m).pod =
      setNodeName podFields sf top.nodeName := by
  rw [schedulePod_eval hpod huid hspec hrk hlast resp m]
  cases bindPod resp (setNodeName podFields sf top.nodeName) <;> rfl

/-- C2: when the oracle returns a non-empty mapping of node identifiers
to numeric weights, the node `schedulePod` writes into the pod's
`spec.nodeName` is the last element of the weight-sorted ranking list,
and its weight is the maximum weight of the mapping: the mapping's
entries are exactly the rankings `rks`, the selected ranking belongs to
`rks`, and every weight in `rks` is at most the selected one. -/
theorem schedulePod_selects_max_weight
    (resp : BindResp) (m : Mirror) (pod : JsonVal)
    (podFields sf fields : List (String × JsonVal)) (uid : String)
    (rks : List ranking) (top : ranking)
    (hpod : pod = .obj podFields)
    (huid : getUID pod = some uid)
    (hspec : lookupField podFields "spec" = some (.obj sf))
    (hrk : toRankings fields = some rks)
    (hlast : (sortRankings rks).getLast? = some top) :
    getNodeName ((schedulePod (.defined (.obj fields)) resp pod m).pod) =
      some top.nodeName ∧
    fields = rks.map (fun r => (r.nodeName, JsonVal.num r.weight)) ∧
    top ∈ rks ∧
    ∀ r ∈ rks, r.weight ≤ top.weight := by
  have hperm := List.perm_insertionSort rankingLE rks
  have hsorted : (sortRankings rks).Pairwise rankingLE :=
    List.sorted_insertionSort rankingLE rks
  have htopmem : top ∈ sortRankings rks := by
    obtain ⟨hne, heq⟩ := List.mem_getLast?_eq_getLast hlast
    rw [heq]
    exact List.getLast_mem hne
  refine ⟨?_, toRankings_eq hrk, hperm.subset htopmem, ?_⟩
  · rw [schedulePod_eval_pod hpod huid hspec hrk hlast resp m]
    exact getNodeName_setNodeName _ _ _
  · intro r hr
    exact weight_le_of_getLast? hsorted hlast r (hperm.symm.subset hr)

theorem schedulePod_selects_max_weight_witness :
    getUID pod0 = some "p1" ∧
    (sortRankings [⟨"n1", 1⟩, ⟨"n2", 2⟩]).getLast? = some ⟨"n2", 2⟩ ∧
    (getNodeName ((schedulePod (.defined (.obj [("n1", .num 1), ("n2", .num 2)]))
          (.status 200) pod0 []).pod) = some "n2" ∧
     [("n1", JsonVal.num 1), ("n2", JsonVal.num 2)] =
       [ranking.mk "n1" 1, ranking.mk "n2" 2].map
         (fun r => (r.nodeName, JsonVal.num r.weight)) ∧
     ranking.mk "n2" 2 ∈ [ranking.mk "n1" 1, ranking.mk "n2" 2] ∧
     ∀ r ∈ [ranking.mk "n1" 1, ranking.mk "n2" 2],
       r.weight ≤ (ranking.mk "n2" 2).weight) :=
  ⟨rfl, by decide,
    schedulePod_selects_max_weight (.status 200) [] pod0
      [("metadata", .obj [("uid", .str "p1"), ("name", .str "a"),
                          ("namespace", .str "ns")]),
       ("spec", .obj []), ("status", .obj [("phase", .str "Pending")])]
      [] [("n1", .num 1), ("n2", .num 2)] "p1"
      [⟨"n1", 1⟩, ⟨"n2", 2⟩] ⟨"n2", 2⟩ rfl rfl rfl rfl (by decide)⟩

/-- C10: `schedulePod` mutates the caller's pod document: on every run
in which the oracle selects a node (non-empty numeric mapping, valid
uid, object-valued `spec`), the pod handed back to the caller is the
in-place updated document whose `spec.nodeName` is the selected node —
for every bind answer `resp`, so in particular the mutation persists on
the bind-failure path, where the Mirror entry is retracted. -/
theorem schedulePod_mutates_pod_in_place
    (resp : BindResp) (m : Mirror) (pod : JsonVal)
    (podFields sf fields : List (String × JsonVal)) (uid : String)
    (rks : List ranking) (top : ranking)
    (hpod : pod = .obj podFields)
    (huid : getUID pod = some uid)
    (hspec : lookupField podFields "spec" = some (.obj sf))
    (hrk : toRankings fields = some rks)
    (hlast : (sortRankings rks).getLast? = some top) :
    (schedulePod (.defined (.obj fields)) resp pod m).pod =
      setNodeName podFields sf top.nodeName ∧
    getNodeName ((schedulePod (.defined (.obj fields)) resp pod m).pod) =
      some top.nodeName := by
  have h1 := schedulePod_eval_pod hpod huid hspec hrk hlast resp m
  refine ⟨h1, ?_⟩
  rw [h1]
  exact getNodeName_setNodeName _ _ _

theorem schedulePod_mutates_pod_in_place_witness :
    getUID pod0 = some "p1" ∧
    ((schedulePod (.defined (.obj [("n1", .num 1), ("n2", .num 2)]))
        (.status 500) pod0 []).pod =
      setNodeName [("metadata", .obj [("uid", .str "p1"), ("name", .str "a"),
                                      ("namespace", .str "ns")]),
                   ("spec", .obj []),
                   ("status", .obj [("phase", .str "Pending")])] [] "n2" ∧
     getNodeName ((schedulePod (.defined (.obj [("n1", .num 1), ("n2", .num 2)]))
        (.status 500) pod0 []).pod) = some "n2") :=
  ⟨rfl, schedulePod_mutates_pod_in_place (.status 500) [] pod0
      [("metadata", .obj [("uid", .str "p1"), ("name", .str "a"),
                          ("namespace", .str "ns")]),
       ("spec", .obj []), ("status", .obj [("phase", .str "Pending")])]
      [] [("n1", .num 1), ("n2", .num 2)] "p1"
      [⟨"n1", 1⟩, ⟨"n2", 2⟩] ⟨"n2", 2⟩ rfl rfl rfl rfl (by decide)⟩

/-- C1: when the oracle returns a valid non-empty mapping but the bind
call fails — at transport level or with a status above 201 — on a pod
carrying the identity fields the binding needs, `schedulePod` removes
the Mirror entry it wrote at `data.pods[uid]` before returning (the
final Mirror holds nothing at that key), returns exactly the binding
error, and its write trace is the upsert followed by the compensating
removal. -/
theorem schedulePod_bind_failure_compensates
    (resp : BindResp) (m : Mirror) (pod : JsonVal)
    (podFields sf fields : List (String × JsonVal)) (uid nm ns : String)
    (rks : List ranking) (top : ranking)
    (hpod : pod = .obj podFields)
    (huid : getUID pod = some uid)
    (hname : getMetadata "name" pod = some nm)
    (hns : getMetadata "namespace" pod = some ns)
    (hspec : lookupField podFields "spec" = some (.obj sf))
    (hrk : toRankings fields = some rks)
    (hlast : (sortRankings rks).getLast? = some top)
    (hfail : resp = .transportErr ∨ ∃ c, resp = .status c ∧ 201 < c) :
    (schedulePod (.defined (.obj fields)) resp pod m).outcome =
      .err (match resp with
            | .transportErr => .bindTransport
            | .status c => .bindStatus c) ∧
    ((schedulePod (.defined (.obj fields)) resp pod m).mirror).lookup
        ("pods", uid) = none ∧
    (schedulePod (.defined (.obj fields)) resp pod m).writes =
      [⟨.addOp, "pods", uid, some (setNodeName podFields sf top.nodeName)⟩,
       ⟨.removeOp, "pods", uid, none⟩] := by
  have hbind : bindPod resp (setNodeName podFields sf top.nodeName) =
      some (match resp with
            | .transportErr => .bindTransport
            | .status c => .bindStatus c) := by
    rw [hpod] at hname hns
    rcases hfail with h | ⟨c, hc, hgt⟩
    · subst h
      simp [bindPod, getMetadata_setNodeName, getNodeName_setNodeName, hname, hns]
    · subst hc
      simp [bindPod, getMetadata_setNodeName, getNodeName_setNodeName, hname, hns, hgt]
  rw [schedulePod_eval hpod huid hspec hrk hlast resp m, hbind]
  exact ⟨rfl, by simp [Mirror.lookup_removeKey], rfl⟩

theorem schedulePod_bind_failure_compensates_witness :
    getUID pod0 = some "p1" ∧ getMetadata "name" pod0 = some "a" ∧
    getMetadata "namespace" pod0 = some "ns" ∧ (201 < 500) ∧
    ((schedulePod (.defined (.obj [("n1", .num 1), ("n2", .num 2)]))
        (.status 500) pod0 []).outcome = .err (.bindStatus 500) ∧
     ((schedulePod (.defined (.obj [("n1", .num 1), ("n2", .num 2)]))
        (.status 500) pod0 []).mirror).lookup ("pods", "p1") = none ∧
     (schedulePod (.defined (.obj [("n1", .num 1), ("n2", .num 2)]))
        (.status 500) pod0 []).writes =
       [⟨.addOp, "pods", "p1",
         some (setNodeName [("metadata", .obj [("uid", .str "p1"), ("name", .str "a"),
                                               ("namespace", .str "ns")]),
                            ("spec", .obj []),
                            ("status", .obj [("phase", .str "Pending")])] [] "n2")⟩,
        ⟨.removeOp, "pods", "p1", none⟩]) :=
  ⟨rfl, rfl, rfl, by decide,
    schedulePod_bind_failure_compensates (.status 500) [] pod0
      [("metadata", .obj [("uid", .str "p1"), ("name", .str "a"),
                          ("namespace", .str "ns")]),
       ("spec", .obj []), ("status", .obj [("phase", .str "Pending")])]
      [] [("n1", .num 1), ("n2", .num 2)] "p1" "a" "ns"
      [⟨"n1", 1⟩, ⟨"n2", 2⟩] ⟨"n2", 2⟩ rfl rfl rfl rfl rfl rfl (by decide)
      (Or.inr ⟨500, rfl, by decide⟩)⟩

/-- On a snapshot whose items all carry uids, the Resync loop succeeds
and its write trace is exactly one `AddOp` upsert per item, keyed by
that item's uid, in snapshot order. -/
theorem patchItems_writes (resourceType : String) (items : List JsonVal)
    (m : Mirror) (h : ∀ it ∈ items, (getUID it).isSome) :
    (patchItems resourceType items m).writes =
      items.map (fun it => ⟨.addOp, resourceType, (getUID it).getD "", some it⟩) ∧
    (patchItems resourceType items m).outcome = .ok := by
  induction items generalizing m with
  | nil => exact ⟨rfl, rfl⟩
  | cons it rest ih =>
    obtain ⟨u, hu⟩ := Option.isSome_iff_exists.mp (h it (List.mem_cons_self it rest))
    have hrest := ih (m.upsert (resourceType, u) it)
      (fun x hx => h x (List.mem_cons_of_mem _ hx))
    simp [patchItems, patchOp, hu, storeWrite, hrest.1, hrest.2]

/-- The Resync loop's final Mirror, observed through `lookup`, depends
on the initial Mirror only through `lookup`. -/
theorem patchItems_lookup_congr (resourceType : String) (items : List JsonVal)
    (h : ∀ it ∈ items, (getUID it).isSome) (m1 m2 : Mirror)
    (hm : ∀ k, m1.lookup k = m2.lookup k) :
    ∀ k, (patchItems resourceType items m1).mirror.lookup k =
      (patchItems resourceType items m2).mirror.lookup k := by
  induction items generalizing m1 m2 with
  | nil => intro k; simpa [patchItems] using hm k
  | cons it rest ih =>
    obtain ⟨u, hu⟩ := Option.isSome_iff_exists.mp (h it (List.mem_cons_self it rest))
    intro k
    have hm' : ∀ k', (m1.upsert (resourceType, u) it).lookup k' =
        (m2.upsert (resourceType, u) it).lookup k' := by
      intro k'
      simp [Mirror.lookup_upsert, hm k']
    simpa [patchItems, patchOp, hu, storeWrite] using
      ih (fun x hx => h x (List.mem_cons_of_mem _ hx)) _ _ hm' k

/-- With pairwise-distinct uids, the Resync loop's final Mirror (as
observed through `lookup`) does not depend on the snapshot's processing
order. -/
theorem patchItems_lookup_perm (resourceType : String)
    {items items' : List JsonVal} (hperm : items.Perm items') :
    (∀ it ∈ items, (getUID it).isSome) →
    ((items.map fun it => (getUID it).getD "").Nodup) →
    ∀ (m : Mirror) (k : String × String),
      (patchItems resourceType items m).mirror.lookup k =
      (patchItems resourceType items' m).mirror.lookup k := by
  induction hperm with
  | nil => intro _ _ m k; rfl
  | cons x h12 ih =>
    intro h hnodup m k
    obtain ⟨u, hu⟩ := Option.isSome_iff_exists.mp (h x (List.mem_cons_self x _))
    have htail : ∀ it ∈ _, (getUID it).isSome :=
      fun it hit => h it (List.mem_cons_of_mem _ hit)
    have hnodup' := (List.nodup_cons.mp hnodup).2
    simpa [patchItems, patchOp, hu, storeWrite] using
      ih htail hnodup' (m.upsert (resourceType, u) x) k
  | swap x y l =>
    intro h hnodup m k
    obtain ⟨uy, huy⟩ := Option.isSome_iff_exists.mp (h y (List.mem_cons_self y _))
    obtain ⟨ux, hux⟩ := Option.isSome_iff_exists.mp
      (h x (List.mem_cons_of_mem _ (List.mem_cons_self x l)))
    have hne : uy ≠ ux := by
      have h1 := (List.nodup_cons.mp hnodup).1
      simp only [List.map_cons, List.mem_cons, huy, hux, Option.getD_some] at h1 ⊢
      intro hcontra
      exact h1 (Or.inl hcontra)
    have hl : ∀ it ∈ l, (getUID it).isSome :=
      fun it hit => h it (List.mem_cons_of_mem _ (List.mem_cons_of_mem _ hit))
    have hbase : ∀ k', ((m.upsert (resourceType, uy) y).upsert (resourceType, ux) x).lookup k' =
        ((m.upsert (resourceType, ux) x).upsert (resourceType, uy) y).lookup k' := by
      intro k'
      simp only [Mirror.lookup_upsert]
      by_cases h1 : (resourceType, ux) = k' <;> by_cases h2 : (resourceType, uy) = k'
      · exact absurd (h1 ▸ h2) (by simp [hne])
      · simp [h1, h2]
      · simp [h1, h2]
      · simp [h1, h2]
    have hcong := patchItems_lookup_congr resourceType l hl _ _ hbase
    simpa [patchItems, patchOp, hux, huy, storeWrite] using hcong k
  | trans h12 h23 ih1 ih2 =>
    intro h hnodup m k
    have h2 : ∀ it ∈ _, (getUID it).isSome :=
      fun it hit => h it (h12.mem_iff.mpr hit)
    have hnodup2 := ((h12.map fun it => (getUID it).getD "").nodup_iff).mp hnodup
    exact (ih1 h hnodup m k).trans (ih2 h2 hnodup2 m k)

/-- C7: a Resync routed to the Mirror-Patch action performs exactly one
upsert per snapshot item, keyed by that item's `metadata.uid` at
`data.<resourceType>[uid]` — the write trace is the per-item upsert list
— and the resulting Mirror contents are independent of the items'
processing order within the snapshot (for any permutation of a
snapshot with pairwise-distinct uids, every lookup agrees). -/
theorem patch_resync_upsert_per_item (resourceType : String)
    (items items' : List JsonVal) (m : Mirror) (k : String × String)
    (h : ∀ it ∈ items, (getUID it).isSome)
    (hperm : items.Perm items')
    (hnodup : (items.map fun it => (getUID it).getD "").Nodup) :
    (patch resourceType (.resync items) m).writes =
      items.map (fun it => ⟨.addOp, resourceType, (getUID it).getD "", some it⟩) ∧
    (patch resourceType (.resync items) m).mirror.lookup k =
      (patch resourceType (.resync items') m).mirror.lookup k := by
  refine ⟨(patchItems_writes resourceType items m h).1, ?_⟩
  simpa [patch] using patchItems_lookup_perm resourceType hperm h hnodup m k

/-- Two well-formed node documents used by the C7 witness. -/
def node1 : JsonVal := .obj [("metadata", .obj [("uid", .str "u1"), ("name", .str "node-1")])]

/-- Second node document for the C7 witness. -/
def node2 : JsonVal := .obj [("metadata", .obj [("uid", .str "u2"), ("name", .str "node-2")])]

theorem patch_resync_upsert_per_item_witness :
    (∀ it ∈ [node1, node2], (getUID it).isSome) ∧
    ((patch "nodes" (.resync [node1, node2]) []).writes =
       [⟨.addOp, "nodes", "u1", some node1⟩, ⟨.addOp, "nodes", "u2", some node2⟩] ∧
     (patch "nodes" (.resync [node1, node2]) []).mirror.lookup ("nodes", "u1") =
       (patch "nodes" (.resync [node2, node1]) []).mirror.lookup ("nodes", "u1")) :=
  ⟨by decide, patch_resync_upsert_per_item "nodes" [node1, node2] [node2, node1] []
      ("nodes", "u1") (by decide) (List.Perm.swap node2 node1 []) (by decide)⟩
